import Mathlib

/-!
Verification development for the navigation and load-state synchronization
engine of this repository (the `FrameNavigationsObserver` class and its
collaborators).  JavaScript strings are embedded as `List Char`, command ids
as `Int`, deferred promises and timers as explicit heaps inside a `World`
value, and each observer method becomes a pure state-passing function.
-/

/-- Load-status milestones that can appear as keys of a navigation entry
status map.  `ContentPaint` is the extra content-paint marker stored in the
status map alongside the ordinary load statuses. -/
inductive LoadStatus
  | NavigationRequested
  | HttpRequested
  | HttpRedirected
  | HttpResponded
  | JavascriptReady
  | DomContentLoaded
  | AllContentLoaded
  | ContentPaint
  | PaintingStable
deriving DecidableEq

/-- Location triggers are transition conditions, distinct from milestones. -/
inductive LocationTrigger
  | reload
  | change
deriving DecidableEq

/-- A pending trigger target is either a load milestone or a location
trigger, mirroring the union type of the `statusTrigger` field. -/
inductive LocationStatus
  | load (status : LoadStatus)
  | location (trigger : LocationTrigger)
deriving DecidableEq

/-- Modelled from the spec: the Load-Status Pipeline table lives outside the
provided sources.  Section 3 of the spec fixes the total order
HttpResponded < DomContentLoaded < AllContentLoaded < ContentPaint <
PaintingStable and says each milestone carries an integer rank; ranks here
start at 1 so that every rank is truthy in the JavaScript sense. -/
def LoadStatusPipeline : LoadStatus → Nat
  | .NavigationRequested => 1
  | .HttpRequested => 2
  | .HttpRedirected => 3
  | .HttpResponded => 4
  | .JavascriptReady => 5
  | .DomContentLoaded => 6
  | .AllContentLoaded => 7
  | .ContentPaint => 8
  | .PaintingStable => 9

/-- The rank actually compared during the status scan: `AllContentLoaded`
is pinned to its own pipeline entry rather than its positional rank, exactly
as the scan loop of `onLoadStatusChange` does. -/
def pinnedPipelineRank (s : LoadStatus) : Nat :=
  if s = .AllContentLoaded then LoadStatusPipeline .AllContentLoaded
  else LoadStatusPipeline s

/-- Navigation reasons distinguished by the observer. -/
inductive NavigationReason
  | inPage
  | httpHeaderRefresh
  | metaTagRefresh
  | reload
  | userInitiated
  | other
deriving DecidableEq

/-- Rejection reasons, so a cancellation is distinguishable from a timeout
or a navigation error. -/
inductive RejectReason
  | canceled (message : String)
  | timedOut (message : String)
  | navErr (message : String)
deriving DecidableEq

/-- Modelled from the spec: the deferred result objects produced by the
commons `createPromise` helper (not under the provided sources) settle
exactly once; resolving or rejecting an already settled deferred is a
no-op (spec sections 4.9 and 9). -/
inductive PromiseState
  | pending
  | resolved (value : Option Int)
  | rejected (reason : RejectReason)
deriving DecidableEq

def PromiseState.isPending : PromiseState → Bool
  | .pending => true
  | _ => false

def PromiseState.isSuccess : PromiseState → Bool
  | .resolved _ => true
  | _ => false

/-- The runtime heap: promise cells addressed by index, and timer handles
addressed by index (`true` means the timer is armed and in flight). -/
structure World where
  promises : List PromiseState
  timers : List Bool
deriving DecidableEq

def World.empty : World := ⟨[], []⟩

def World.getPromise (w : World) (p : Nat) : PromiseState :=
  w.promises.getD p .pending

/-- Settle a promise cell; a no-op when the cell is already settled. -/
def World.settlePromise (w : World) (p : Nat) (s : PromiseState) : World :=
  if (w.getPromise p).isPending then { w with promises := w.promises.set p s }
  else w

def World.resolveP (w : World) (p : Nat) (v : Option Int) : World :=
  w.settlePromise p (.resolved v)

def World.rejectP (w : World) (p : Nat) (r : RejectReason) : World :=
  w.settlePromise p (.rejected r)

def World.newPromise (w : World) : Nat × World :=
  (w.promises.length, { w with promises := w.promises ++ [.pending] })

def World.armTimer (w : World) : Nat × World :=
  (w.timers.length, { w with timers := w.timers ++ [true] })

/-- `clearTimeout`: clearing an undefined or already cleared handle is a
no-op. -/
def World.clearTimer (w : World) (t : Option Nat) : World :=
  match t with
  | none => w
  | some i => { w with timers := w.timers.set i false }

/-- One navigation entry of the timeline.  `finalUrl` is a JavaScript
string embedded as its character list; `statusChanges` is the insertion
ordered list of status-map keys; `resourceId` is the promise cell of the
entry resource deferred. -/
structure INavigation where
  startCommandId : Int
  finalUrl : List Char
  navigationReason : NavigationReason
  statusChanges : List LoadStatus
  resourceId : Nat
  navigationError : Option String := none
deriving DecidableEq

/-- Result of the paint-stable query exposed by the navigation timeline. -/
structure PaintStableStatus where
  isStable : Bool
  timeUntilReadyMs : Option Nat
deriving DecidableEq

/-- The navigation timeline as read by the observer: the append-only
history plus the current paint-stable query answer. -/
structure FrameNavigations where
  history : List INavigation
  paintStable : PaintStableStatus := ⟨false, none⟩
deriving DecidableEq

/-- The current (top) entry is the most recently appended one. -/
def FrameNavigations.top (nav : FrameNavigations) : Option INavigation :=
  nav.history.getLast?

/-- Modelled from the spec: `FrameNavigations.hasLoadStatus` is not under
the provided sources; spec section 4.5 defines it as: the top entry status
map already records a milestone of rank at least the requested one, under
the section 4.6 ranking rule (skip `HttpRedirected`, pin
`AllContentLoaded`). -/
def FrameNavigations.hasLoadStatus (nav : FrameNavigations) (status : LoadStatus) : Bool :=
  match nav.top with
  | none => false
  | some t => t.statusChanges.any fun s =>
      decide (s ≠ .HttpRedirected) && decide (pinnedPipelineRank s ≥ LoadStatusPipeline status)

/-- Command metadata: a monotone id and a name, the name embedded as a
JavaScript string. -/
structure ICommandMeta where
  id : Int
  name : List Char
deriving DecidableEq

/-- Options accepted by the wait calls. -/
structure IWaitForOptions where
  timeoutMs : Option Nat := none
  sinceCommandId : Option Int := none
deriving DecidableEq

/-- The mutable fields of `FrameNavigationsObserver`. -/
structure ObserverState where
  defaultWaitForLocationCommandId : Int := 0
  waitingForLoadTimeout : Option Nat := none
  resourceIdResolvable : Option Nat := none
  statusTriggerResolvable : Option Nat := none
  statusTrigger : Option LocationStatus := none
  statusTriggerStartCommandId : Option Int := none
deriving DecidableEq

def ObserverState.init : ObserverState := {}

/-- JavaScript prefix test on embedded strings. -/
def isPrefixL : List Char → List Char → Bool
  | [], _ => true
  | _ :: _, [] => false
  | a :: as, b :: bs => a = b && isPrefixL as bs

/-- Helper for `jsReplaceFirstWithEmpty`: walks the string looking for the
first occurrence of a nonempty pattern and removes it; when the pattern
does not occur the string comes back unchanged. -/
def removeFirstAux (pat : List Char) : List Char → List Char
  | [] => []
  | c :: rest =>
      if isPrefixL pat (c :: rest) then (c :: rest).drop pat.length
      else c :: removeFirstAux pat rest

/-- JavaScript `s.replace(pat, "")` for a string pattern: removes the first
occurrence of `pat` from `s`; with an empty pattern or no occurrence the
result is `s` itself. -/
def jsReplaceFirstWithEmpty (s pat : List Char) : List Char :=
  match pat with
  | [] => s
  | _ :: _ => removeFirstAux pat s

/-- JavaScript `a >= b` when `b` may be `undefined`: any comparison against
`undefined` is false. -/
def jsGte (a : Int) (b : Option Int) : Bool :=
  match b with
  | some n => decide (a ≥ n)
  | none => false

/-- JavaScript truthiness of an optional number (0 and `undefined` are
falsy). -/
def jsTruthyInt (o : Option Int) : Bool :=
  match o with
  | some n => decide (n ≠ 0)
  | none => false

/-- JavaScript truthiness of the optional `timeUntilReadyMs` number. -/
def jsTruthyNat (o : Option Nat) : Bool :=
  match o with
  | some n => decide (n ≠ 0)
  | none => false

/-- `FrameNavigationsObserver.isNavigationReload`, verbatim. -/
def isNavigationReload : NavigationReason → Bool
  | .httpHeaderRefresh => true
  | .metaTagRefresh => true
  | .reload => true
  | _ => false

/-- The per-entry location-change test of `hasLocationTrigger`: for a
`reload` trigger the navigation reason must classify as a reload; for a
`change` trigger there must be a truthy previously loaded URL differing
from the entry final URL, and the difference must not be a trivial in-page
adjustment (removing the first occurrence of the previous URL from the
final URL leaves at most one character while the reason is `inPage`). -/
def entryIsLocationChange (trigger : LocationTrigger) (previousLoadedUrl : Option (List Char))
    (entry : INavigation) : Bool :=
  match trigger, previousLoadedUrl with
  | .reload, _ => isNavigationReload entry.navigationReason
  | .change, none => false
  | .change, some u =>
      decide ((u ≠ [] ∧ u ≠ entry.finalUrl) ∧
        ¬(entry.navigationReason = .inPage ∧
          (jsReplaceFirstWithEmpty entry.finalUrl u).length ≤ 1))

/-- Whether the scan of `hasLocationTrigger` accepts this entry: it must be
in scope of `sinceCommandId` and pass the location-change test. -/
def entrySatisfies (trigger : LocationTrigger) (since : Option Int)
    (previousLoadedUrl : Option (List Char)) (entry : INavigation) : Bool :=
  jsGte entry.startCommandId since && entryIsLocationChange trigger previousLoadedUrl entry

/-- Whether an entry updates the tracked previously loaded URL: it reached
`HttpResponded` or `DomContentLoaded` without recording `HttpRedirected`. -/
def entrySettles (entry : INavigation) : Bool :=
  (decide (LoadStatus.HttpResponded ∈ entry.statusChanges) ||
   decide (LoadStatus.DomContentLoaded ∈ entry.statusChanges)) &&
  !decide (LoadStatus.HttpRedirected ∈ entry.statusChanges)

/-- The history scan of `FrameNavigationsObserver.hasLocationTrigger`. -/
def hasLocationTriggerLoop (trigger : LocationTrigger) (since : Option Int) :
    Option (List Char) → List INavigation → Bool
  | _, [] => false
  | prevUrl, entry :: rest =>
      if entrySatisfies trigger since prevUrl entry then true
      else
        hasLocationTriggerLoop trigger since
          (if entrySettles entry then some entry.finalUrl else prevUrl) rest

/-- `FrameNavigationsObserver.hasLocationTrigger`. -/
def hasLocationTrigger (nav : FrameNavigations) (trigger : LocationTrigger)
    (since : Option Int) : Bool :=
  hasLocationTriggerLoop trigger since none nav.history

/-- One step of the `cancelWaiting` loop: skip a missing or already
settled deferred, reject a still pending one with a cancellation error. -/
def World.rejectIfPending (w : World) (t : Option Nat) (cancelMessage : String) : World :=
  match t with
  | none => w
  | some p =>
      if (w.getPromise p).isPending then w.rejectP p (.canceled cancelMessage) else w

/-- `FrameNavigationsObserver.cancelWaiting`: clear the settlement timer
and reject each still pending tracked deferred (resource id first, then
status trigger) with a cancellation error carrying the message. -/
def cancelWaiting (cancelMessage : String) (w : World) (st : ObserverState) : World :=
  (((w.clearTimer st.waitingForLoadTimeout).rejectIfPending st.resourceIdResolvable
      cancelMessage).rejectIfPending st.statusTriggerResolvable cancelMessage)

/-- `FrameNavigationsObserver.createStatusTriggeredPromise`: cancel any
existing trigger, then arm the new one and hand back the fresh promise
cell. -/
def createStatusTriggeredPromise (status : LocationStatus) (timeoutMs : Option Nat)
    (sinceCommandId : Option Int) (w : World) (st : ObserverState) :
    Nat × World × ObserverState :=
  let w := if st.statusTriggerResolvable.isSome
    then cancelWaiting "New location trigger created" w st else w
  let pw := w.newPromise
  (pw.1, pw.2,
    { st with
      statusTrigger := some status
      statusTriggerStartCommandId := sinceCommandId
      statusTriggerResolvable := some pw.1 })

/-- `FrameNavigationsObserver.resolvePendingStatus`: when the status
trigger deferred exists and is still pending, clear the settlement timer,
resolve it and null the trigger bookkeeping. -/
def resolvePendingStatus (w : World) (st : ObserverState) : World × ObserverState :=
  match st.statusTriggerResolvable with
  | none => (w, st)
  | some p =>
      if (w.getPromise p).isPending then
        let w := w.clearTimer st.waitingForLoadTimeout
        let w := w.resolveP p none
        (w, { st with
          statusTriggerResolvable := none
          statusTrigger := none
          statusTriggerStartCommandId := none })
      else (w, st)

/-- The first half of `waitForPageLoaded`: clear any prior settlement
timer, then resolve right away when paint is already stable. -/
def paintStableStep (nav : FrameNavigations) (w : World) (st : ObserverState) :
    World × ObserverState :=
  if nav.paintStable.isStable then
    resolvePendingStatus (w.clearTimer st.waitingForLoadTimeout) st
  else (w.clearTimer st.waitingForLoadTimeout, st)

/-- `FrameNavigationsObserver.waitForPageLoaded`: clear any prior
settlement timer, resolve right away when paint is already stable and
otherwise arm a fresh settlement timer for the remaining quiet period. -/
def waitForPageLoaded (nav : FrameNavigations) (w : World) (st : ObserverState) :
    World × ObserverState :=
  if !nav.paintStable.isStable && jsTruthyNat nav.paintStable.timeUntilReadyMs then
    (((paintStableStep nav w st).1.armTimer).2,
      { (paintStableStep nav w st).2 with
          waitingForLoadTimeout := some (((paintStableStep nav w st).1.armTimer).1) })
  else paintStableStep nav w st

/-- The scan loop of `onLoadStatusChange` over the top entry status keys:
skip `HttpRedirected`, and resolve on the first milestone whose pinned
rank reaches the load trigger rank. -/
def scanStatusKeys (loadTrigger : Nat) (w : World) (st : ObserverState) :
    List LoadStatus → World × ObserverState
  | [] => (w, st)
  | s :: rest =>
      if s = .HttpRedirected then scanStatusKeys loadTrigger w st rest
      else if pinnedPipelineRank s ≥ loadTrigger then resolvePendingStatus w st
      else scanStatusKeys loadTrigger w st rest

/-- `FrameNavigationsObserver.onLoadStatusChange`, invoked on every
status-change notification of the navigation timeline. -/
def onLoadStatusChange (nav : FrameNavigations) (w : World) (st : ObserverState) :
    World × ObserverState :=
  match st.statusTrigger with
  | some (.location trig) =>
      if hasLocationTrigger nav trig st.statusTriggerStartCommandId
      then resolvePendingStatus w st
      else (w, st)
  | _ =>
      match st.statusTriggerResolvable with
      | none => (w, st)
      | some p =>
          if (w.getPromise p).isPending then
            match st.statusTrigger with
            | some (.load s) =>
                if LoadStatusPipeline s = 0 then (w, st)
                else if s = .PaintingStable then waitForPageLoaded nav w st
                else
                  match nav.top with
                  | none => (w, st)
                  | some t => scanStatusKeys (LoadStatusPipeline s) w st t.statusChanges
            | _ => (w, st)
          else (w, st)

/-- Result of a wait call: a synchronous failure, an already resolved
return, or a live pending trigger with its promise cell. -/
inductive WaitOutcome
  | errored (message : String)
  | resolvedNow
  | pendingTrigger (promiseId : Nat)
deriving DecidableEq

/-- The scope anchor used by `waitForLocation`: the supplied
`sinceCommandId` exactly when an integer was supplied
(`Number.isInteger`), else the default wait-for-location cursor. -/
def resolvedSinceCommandId (options : IWaitForOptions) (st : ObserverState) : Int :=
  match options.sinceCommandId with
  | some n => n
  | none => st.defaultWaitForLocationCommandId

/-- `FrameNavigationsObserver.waitForLocation`: resolve the scope anchor
from the options when an integer was supplied, else from the default
cursor; answer synchronously when the trigger already holds, otherwise
register a pending trigger. -/
def waitForLocation (nav : FrameNavigations) (trigger : LocationTrigger)
    (options : IWaitForOptions) (w : World) (st : ObserverState) :
    WaitOutcome × World × ObserverState :=
  let sinceCommandId : Int := resolvedSinceCommandId options st
  if hasLocationTrigger nav trigger (some sinceCommandId) then (.resolvedNow, w, st)
  else
    let r := createStatusTriggeredPromise (.location trigger) options.timeoutMs
      (some sinceCommandId) w st
    (.pendingTrigger r.1, r.2.1, r.2.2)

/-- `FrameNavigationsObserver.waitForLoad`: a truthy `sinceCommandId`
option fails synchronously; an already reached status answers
synchronously; otherwise a pending trigger is registered and the
re-evaluation path runs once when a top entry exists. -/
def waitForLoad (nav : FrameNavigations) (status : LoadStatus)
    (options : IWaitForOptions) (w : World) (st : ObserverState) :
    WaitOutcome × World × ObserverState :=
  if jsTruthyInt options.sinceCommandId then (.errored "Not implemented", w, st)
  else
    let top := nav.top
    if nav.hasLoadStatus status then (.resolvedNow, w, st)
    else
      let r := createStatusTriggeredPromise (.load status) options.timeoutMs none w st
      let r2 := if top.isSome then onLoadStatusChange nav r.2.1 r.2.2 else (r.2.1, r.2.2)
      (.pendingTrigger r.1, r2.1, r2.2)

/-- Result of a `waitForNavigationResourceId` call. -/
inductive ResourceWaitOutcome
  | stillWaiting
  | failed (message : String)
  | resolvedWith (id : Option Int)
deriving DecidableEq

/-- `FrameNavigationsObserver.waitForNavigationResourceId`: track the top
entry resource deferred and await it; with no top entry the await of
`undefined` completes at once with an `undefined` id; a terminal
navigation error on the entry is surfaced after the await. -/
def waitForNavigationResourceId (nav : FrameNavigations) (w : World) (st : ObserverState) :
    ResourceWaitOutcome × ObserverState :=
  match nav.top with
  | none => (.resolvedWith none, { st with resourceIdResolvable := none })
  | some t =>
      let st := { st with resourceIdResolvable := some t.resourceId }
      match w.getPromise t.resourceId with
      | .pending => (.stillWaiting, st)
      | .rejected r =>
          match r with
          | .canceled m => (.failed m, st)
          | .timedOut m => (.failed m, st)
          | .navErr m => (.failed m, st)
      | .resolved v =>
          match t.navigationError with
          | some e => (.failed e, st)
          | none => (.resolvedWith v, st)

/-- The cursor computation of `FrameNavigationsObserver.willRunCommand`:
the loop over the previous commands, tracking the last command seen. -/
def willRunCursorLoop : Int → Option ICommandMeta → List ICommandMeta → Int × Option ICommandMeta
  | cursor, last, [] => (cursor, last)
  | cursor, last, command :: rest =>
      let cursor := if command.name = "goto".data then command.id else cursor
      let lastWasWaitFor :=
        match last with
        | some l => isPrefixL "waitFor".data l.name
        | none => false
      let cursor :=
        if lastWasWaitFor && !isPrefixL "waitFor".data command.name then command.id
        else cursor
      willRunCursorLoop cursor (some command) rest

/-- The full cursor computation of `willRunCommand`, including the rule
for back-to-back location waits on the incoming command. -/
def computeNextCursor (cursor : Int) (newCommand : ICommandMeta)
    (previousCommands : List ICommandMeta) : Int :=
  let r := willRunCursorLoop cursor none previousCommands
  if newCommand.name = "waitForLocation".data &&
      (match r.2 with
       | some l => isPrefixL "waitFor".data l.name && decide (l.name ≠ "waitForMillis".data)
       | none => false)
  then newCommand.id
  else r.1

/-- `FrameNavigationsObserver.willRunCommand`: updates only the default
wait-for-location cursor. -/
def willRunCommand (st : ObserverState) (newCommand : ICommandMeta)
    (previousCommands : List ICommandMeta) : ObserverState :=
  { st with defaultWaitForLocationCommandId :=
      computeNextCursor st.defaultWaitForLocationCommandId newCommand previousCommands }

/-- Processing a sequence of status-change notifications, each carrying
the navigation timeline snapshot current when it fires. -/
def notifyAll : List FrameNavigations → World → ObserverState → World × ObserverState
  | [], w, st => (w, st)
  | nav :: rest, w, st =>
      notifyAll rest (onLoadStatusChange nav w st).1 (onLoadStatusChange nav w st).2

/-- The complete observable run of one `waitForLoad` call against a
notification sequence: `true` exactly when the call resolves
successfully. -/
def runWaitForLoad (status : LoadStatus) (nav0 : FrameNavigations)
    (navs : List FrameNavigations) : Bool :=
  let r := waitForLoad nav0 status {} World.empty ObserverState.init
  match r.1 with
  | .errored _ => false
  | .resolvedNow => true
  | .pendingTrigger pid =>
      let f := notifyAll navs r.2.1 r.2.2
      (f.1.getPromise pid).isSuccess

/-! ### List access helper lemmas -/

theorem getD_set_self {α : Type} (l : List α) (i : Nat) (a d : α) (h : i < l.length) :
    (l.set i a).getD i d = a := by
  induction l generalizing i with
  | nil => simp at h
  | cons x t ih =>
      cases i with
      | zero => simp
      | succ n => simpa using ih n (by simpa using h)

theorem getD_set_ne {α : Type} (l : List α) (i j : Nat) (a d : α) (h : i ≠ j) :
    (l.set i a).getD j d = l.getD j d := by
  induction l generalizing i j with
  | nil => simp
  | cons x t ih =>
      cases i with
      | zero =>
          cases j with
          | zero => exact absurd rfl h
          | succ m => simp
      | succ n =>
          cases j with
          | zero => simp
          | succ m => simpa using ih n m (by omega)

theorem getD_append_left {α : Type} (l l2 : List α) (i : Nat) (d : α) (h : i < l.length) :
    (l ++ l2).getD i d = l.getD i d := by
  induction l generalizing i with
  | nil => simp at h
  | cons x t ih =>
      cases i with
      | zero => simp
      | succ n => simpa using ih n (by simpa using h)

theorem getD_append_len {α : Type} (l : List α) (a d : α) :
    (l ++ [a]).getD l.length d = a := by
  induction l with
  | nil => rfl
  | cons x t ih => simpa using ih

theorem getD_of_le {α : Type} (l : List α) (i : Nat) (d : α) (h : l.length ≤ i) :
    l.getD i d = d := by
  induction l generalizing i with
  | nil => simp
  | cons x t ih =>
      cases i with
      | zero => simp at h
      | succ n => simpa using ih n (by simpa using h)

theorem set_of_le {α : Type} (l : List α) (i : Nat) (a : α) (h : l.length ≤ i) :
    l.set i a = l := by
  induction l generalizing i with
  | nil => rfl
  | cons x t ih =>
      cases i with
      | zero => simp at h
      | succ n => simp [ih n (by simpa using h)]

/-! ### Shared concrete fixtures -/

/-- A settled navigation entry used by several concrete checks. -/
def entryDomLoaded : INavigation :=
  { startCommandId := 1, finalUrl := "https://x/".data, navigationReason := .userInitiated,
    statusChanges := [.HttpResponded, .DomContentLoaded], resourceId := 0 }

/-- A timeline whose single entry has reached `DomContentLoaded`. -/
def navDomLoaded : FrameNavigations := { history := [entryDomLoaded] }

/-- A plain non-wait command. -/
def clickCommand : ICommandMeta := { id := 7, name := "click".data }

/-! ### Claim C3 -/

/-- Claim C3, counterexample: supplying `sinceCommandId = 0` to
`waitForLoad` does not fail.  The source guards the Unsupported-Option
throw with a JavaScript truthiness test, so the integer 0 skips it and the
call proceeds to consider the navigation entries (here resolving
synchronously). -/
theorem waitForLoad_sinceCommandId_zero_not_rejected :
    (waitForLoad navDomLoaded .DomContentLoaded { sinceCommandId := some 0 }
      World.empty ObserverState.init).1 = .resolvedNow := by
  decide

/-- Claim C3 (amended): for every supplied nonzero `sinceCommandId`,
`waitForLoad` fails synchronously with the Unsupported-Option error and
leaves the promise heap, the timer heap and the observer state untouched:
no timer is armed and no pending trigger is registered before any
navigation entry is considered. -/
theorem waitForLoad_nonzero_sinceCommandId_errors (nav : FrameNavigations)
    (status : LoadStatus) (tmo : Option Nat) (n : Int) (w : World) (st : ObserverState)
    (h : n ≠ 0) :
    waitForLoad nav status { timeoutMs := tmo, sinceCommandId := some n } w st =
      (.errored "Not implemented", w, st) := by
  simp [waitForLoad, jsTruthyInt, h]

theorem waitForLoad_nonzero_sinceCommandId_errors_witness :
    waitForLoad navDomLoaded .DomContentLoaded { timeoutMs := none, sinceCommandId := some 5 }
      World.empty ObserverState.init =
      (.errored "Not implemented", World.empty, ObserverState.init) :=
  waitForLoad_nonzero_sinceCommandId_errors navDomLoaded .DomContentLoaded none 5
    World.empty ObserverState.init (by decide)

/-! ### Claim C4 -/

/-- Claim C4, counterexample: `willRunCommand` is not a function of the
command sequence alone.  With an empty prior command list and a
non-navigation, non-wait incoming command no rule fires, so the resulting
cursor equals the prior internal cursor: two observers with different
prior cursors disagree on the result. -/
theorem willRunCommand_depends_on_prior_cursor :
    (willRunCommand { defaultWaitForLocationCommandId := 0 } clickCommand
        []).defaultWaitForLocationCommandId ≠
      (willRunCommand { defaultWaitForLocationCommandId := 1 } clickCommand
        []).defaultWaitForLocationCommandId := by
  decide

/-- Claim C4 (amended): `willRunCommand` is a deterministic, pure function
of the prior cursor value together with the command sequence: two runs
agreeing on the prior `defaultWaitForLocationCommandId`, on the prior
commands and on the new command produce the same cursor, regardless of
every other piece of observer state. -/
theorem willRunCommand_deterministic_given_cursor (st1 st2 : ObserverState)
    (newCommand : ICommandMeta) (previousCommands : List ICommandMeta)
    (h : st1.defaultWaitForLocationCommandId = st2.defaultWaitForLocationCommandId) :
    (willRunCommand st1 newCommand previousCommands).defaultWaitForLocationCommandId =
      (willRunCommand st2 newCommand previousCommands).defaultWaitForLocationCommandId := by
  simp [willRunCommand, h]

theorem willRunCommand_deterministic_given_cursor_witness :
    (willRunCommand { defaultWaitForLocationCommandId := 3 } clickCommand
        []).defaultWaitForLocationCommandId =
      (willRunCommand { defaultWaitForLocationCommandId := 3, waitingForLoadTimeout := some 0 }
        clickCommand []).defaultWaitForLocationCommandId :=
  willRunCommand_deterministic_given_cursor _ _ clickCommand [] rfl

/-! ### Claim C10 -/

/-- Claim C10: with no navigation yet (no top entry),
`waitForNavigationResourceId` neither throws nor waits: it completes at
once with an undefined resource id, recording the undefined deferred. -/
theorem waitForNavigationResourceId_no_top_resolves_undefined
    (nav : FrameNavigations) (w : World) (st : ObserverState) (h : nav.top = none) :
    waitForNavigationResourceId nav w st =
      (.resolvedWith none, { st with resourceIdResolvable := none }) := by
  simp [waitForNavigationResourceId, h]

theorem waitForNavigationResourceId_no_top_resolves_undefined_witness :
    waitForNavigationResourceId { history := [] } World.empty ObserverState.init =
      (.resolvedWith none, { ObserverState.init with resourceIdResolvable := none }) :=
  waitForNavigationResourceId_no_top_resolves_undefined { history := [] } World.empty
    ObserverState.init rfl

/-! ### Claim C5 -/

/-- A reload navigation entry. -/
def entryReloaded : INavigation :=
  { startCommandId := 1, finalUrl := "https://x/".data, navigationReason := .reload,
    statusChanges := [.HttpResponded], resourceId := 0 }

/-- A timeline whose single in-scope entry is a reload navigation. -/
def navReloaded : FrameNavigations := { history := [entryReloaded] }

/-- Claim C5: `waitForLocation` anchors its scope to the supplied
`sinceCommandId` exactly when an integer was supplied and to the default
cursor otherwise; when `hasLocationTrigger` already holds at that anchor
the call answers synchronously with promise heap, timer heap and observer
state untouched (no timer created, no pending trigger registered), and
otherwise it registers a pending trigger remembering precisely that
anchor. -/
theorem waitForLocation_anchor_and_sync_check (nav : FrameNavigations)
    (trigger : LocationTrigger) (options : IWaitForOptions) (w : World)
    (st : ObserverState) :
    (hasLocationTrigger nav trigger (some (resolvedSinceCommandId options st)) = true →
      waitForLocation nav trigger options w st = (.resolvedNow, w, st)) ∧
    (hasLocationTrigger nav trigger (some (resolvedSinceCommandId options st)) = false →
      ∃ pid w2 st2,
        waitForLocation nav trigger options w st = (.pendingTrigger pid, w2, st2) ∧
        st2.statusTrigger = some (.location trigger) ∧
        st2.statusTriggerStartCommandId = some (resolvedSinceCommandId options st) ∧
        st2.statusTriggerResolvable = some pid ∧
        (w2.getPromise pid).isPending = true) := by
  constructor
  · intro h
    simp [waitForLocation, h]
  · intro h
    refine ⟨(createStatusTriggeredPromise (.location trigger) options.timeoutMs
        (some (resolvedSinceCommandId options st)) w st).1,
      (createStatusTriggeredPromise (.location trigger) options.timeoutMs
        (some (resolvedSinceCommandId options st)) w st).2.1,
      (createStatusTriggeredPromise (.location trigger) options.timeoutMs
        (some (resolvedSinceCommandId options st)) w st).2.2, ?_, ?_, ?_, ?_, ?_⟩
    · simp [waitForLocation, h]
    · rfl
    · rfl
    · rfl
    · simp only [createStatusTriggeredPromise, World.newPromise, World.getPromise]
      exact congrArg PromiseState.isPending (getD_append_len _ _ _)

theorem waitForLocation_anchor_and_sync_check_witness :
    waitForLocation navReloaded .reload {} World.empty ObserverState.init =
      (.resolvedNow, World.empty, ObserverState.init) :=
  (waitForLocation_anchor_and_sync_check navReloaded .reload {} World.empty
    ObserverState.init).1 (by decide)

/-! ### Promise heap helper lemmas -/

theorem clearTimer_promises (w : World) (t : Option Nat) :
    (w.clearTimer t).promises = w.promises := by
  cases t <;> rfl

theorem clearTimer_getPromise (w : World) (t : Option Nat) (p : Nat) :
    (w.clearTimer t).getPromise p = w.getPromise p := by
  cases t <;> rfl

theorem settle_length (w : World) (p : Nat) (s : PromiseState) :
    (w.settlePromise p s).promises.length = w.promises.length := by
  unfold World.settlePromise
  split
  · simp
  · rfl

theorem settle_getPromise_self (w : World) (p : Nat) (s : PromiseState)
    (h : p < w.promises.length) :
    (w.settlePromise p s).getPromise p =
      if (w.getPromise p).isPending then s else w.getPromise p := by
  unfold World.settlePromise
  by_cases hp : (w.getPromise p).isPending = true
  · rw [if_pos hp, if_pos hp]
    exact getD_set_self w.promises p s _ h
  · rw [if_neg hp, if_neg hp]

theorem settle_getPromise_other (w : World) (p q : Nat) (s : PromiseState) (h : p ≠ q) :
    (w.settlePromise p s).getPromise q = w.getPromise q := by
  unfold World.settlePromise
  split
  · exact getD_set_ne w.promises p q s .pending h
  · rfl

theorem rejectIfPending_length (w : World) (t : Option Nat) (msg : String) :
    (w.rejectIfPending t msg).promises.length = w.promises.length := by
  cases t with
  | none => rfl
  | some p =>
      show (if (w.getPromise p).isPending then w.rejectP p (.canceled msg)
        else w).promises.length = w.promises.length
      split
      · exact settle_length w p _
      · rfl

theorem rejectIfPending_getPromise_self (w : World) (p : Nat) (msg : String)
    (h : p < w.promises.length) :
    (w.rejectIfPending (some p) msg).getPromise p =
      if (w.getPromise p).isPending then .rejected (.canceled msg) else w.getPromise p := by
  show (if (w.getPromise p).isPending then w.rejectP p (.canceled msg)
    else w).getPromise p = _
  by_cases hp : (w.getPromise p).isPending = true
  · rw [if_pos hp, if_pos hp, World.rejectP, settle_getPromise_self w p _ h, if_pos hp]
  · rw [if_neg hp, if_neg hp]

theorem rejectIfPending_getPromise_other (w : World) (t : Option Nat) (msg : String)
    (q : Nat) (h : t ≠ some q) :
    (w.rejectIfPending t msg).getPromise q = w.getPromise q := by
  cases t with
  | none => rfl
  | some p =>
      show (if (w.getPromise p).isPending then w.rejectP p (.canceled msg)
        else w).getPromise q = _
      split
      · exact settle_getPromise_other w p q _ fun hc => h (by rw [hc])
      · rfl

theorem cancelWaiting_length (msg : String) (w : World) (st : ObserverState) :
    (cancelWaiting msg w st).promises.length = w.promises.length := by
  unfold cancelWaiting
  rw [rejectIfPending_length, rejectIfPending_length, clearTimer_promises]

/-- The observable effect of `cancelWaiting` on a tracked promise cell:
a still pending cell is rejected with the cancellation reason, a settled
cell is left exactly as it was. -/
theorem cancelWaiting_getPromise_tracked (msg : String) (w : World) (st : ObserverState)
    (p : Nat)
    (hp : st.resourceIdResolvable = some p ∨ st.statusTriggerResolvable = some p)
    (hl : p < w.promises.length) :
    (cancelWaiting msg w st).getPromise p =
      if (w.getPromise p).isPending then .rejected (.canceled msg) else w.getPromise p := by
  unfold cancelWaiting
  have hw0p : (w.clearTimer st.waitingForLoadTimeout).getPromise p = w.getPromise p :=
    clearTimer_getPromise w _ p
  have hw0l : (w.clearTimer st.waitingForLoadTimeout).promises.length = w.promises.length := by
    rw [clearTimer_promises]
  by_cases hr : st.resourceIdResolvable = some p
  · rw [hr]
    have h1 : ((w.clearTimer st.waitingForLoadTimeout).rejectIfPending (some p)
        msg).getPromise p =
        if (w.getPromise p).isPending then .rejected (.canceled msg) else w.getPromise p := by
      rw [rejectIfPending_getPromise_self _ p msg (hw0l ▸ hl), hw0p]
    cases hs : st.statusTriggerResolvable with
    | none => rw [show ∀ v : World, v.rejectIfPending none msg = v from fun _ => rfl, h1]
    | some q =>
        by_cases hq : q = p
        · subst hq
          rw [rejectIfPending_getPromise_self _ q msg
            (by rw [rejectIfPending_length, hw0l]; exact hl), h1]
          cases hg : w.getPromise q with
          | pending => simp [PromiseState.isPending]
          | resolved v => simp [PromiseState.isPending]
          | rejected r => simp [PromiseState.isPending]
        · rw [rejectIfPending_getPromise_other _ (some q) msg p
            (fun hc => hq (by injection hc)), h1]
  · have hp2 : st.statusTriggerResolvable = some p := hp.resolve_left hr
    rw [hp2]
    have h1 : ((w.clearTimer st.waitingForLoadTimeout).rejectIfPending
        st.resourceIdResolvable msg).getPromise p = w.getPromise p := by
      rw [rejectIfPending_getPromise_other _ _ msg p hr, hw0p]
    rw [rejectIfPending_getPromise_self _ p msg
      (by rw [rejectIfPending_length, hw0l]; exact hl), h1]

/-- After one `cancelWaiting`, a tracked in-range cell is never pending. -/
theorem cancelWaiting_tracked_not_pending (msg : String) (w : World) (st : ObserverState)
    (p : Nat)
    (hp : st.resourceIdResolvable = some p ∨ st.statusTriggerResolvable = some p)
    (hl : p < w.promises.length) :
    ((cancelWaiting msg w st).getPromise p).isPending = false := by
  rw [cancelWaiting_getPromise_tracked msg w st p hp hl]
  cases hg : w.getPromise p with
  | pending => simp [PromiseState.isPending]
  | resolved v => simp [PromiseState.isPending]
  | rejected r => simp [PromiseState.isPending]

theorem rejectIfPending_promises_of_settled (w : World) (t : Option Nat) (msg : String)
    (h : ∀ p, t = some p → (w.getPromise p).isPending = false ∨ w.promises.length ≤ p) :
    (w.rejectIfPending t msg).promises = w.promises := by
  cases t with
  | none => rfl
  | some p =>
      show (if (w.getPromise p).isPending then w.rejectP p (.canceled msg)
        else w).promises = w.promises
      rcases h p rfl with hs | hs
      · rw [if_neg (by simp [hs])]
      · by_cases hpend : (w.getPromise p).isPending = true
        · rw [if_pos hpend]
          show (w.settlePromise p _).promises = w.promises
          unfold World.settlePromise
          rw [if_pos hpend]
          exact set_of_le w.promises p _ hs
        · rw [if_neg hpend]

theorem getPromise_append_lt (w : World) (s : PromiseState) (p : Nat)
    (h : p < w.promises.length) :
    ({ w with promises := w.promises ++ [s] } : World).getPromise p = w.getPromise p := by
  unfold World.getPromise
  exact getD_append_left _ _ p _ h

theorem getPromise_append_len (w : World) (s : PromiseState) :
    ({ w with promises := w.promises ++ [s] } : World).getPromise
      w.promises.length = s := by
  unfold World.getPromise
  exact getD_append_len _ _ _

theorem create_world_eq (status : LocationStatus) (tmo : Option Nat) (since : Option Int)
    (w : World) (st : ObserverState) (h : st.statusTriggerResolvable.isSome = true) :
    (createStatusTriggeredPromise status tmo since w st).2.1 =
      { cancelWaiting "New location trigger created" w st with
        promises := (cancelWaiting "New location trigger created" w st).promises ++
          [.pending] } := by
  simp [createStatusTriggeredPromise, h, World.newPromise]

theorem create_pid_eq (status : LocationStatus) (tmo : Option Nat) (since : Option Int)
    (w : World) (st : ObserverState) (h : st.statusTriggerResolvable.isSome = true) :
    (createStatusTriggeredPromise status tmo since w st).1 =
      (cancelWaiting "New location trigger created" w st).promises.length := by
  simp [createStatusTriggeredPromise, h, World.newPromise]

theorem create_state_resolvable (status : LocationStatus) (tmo : Option Nat)
    (since : Option Int) (w : World) (st : ObserverState) :
    (createStatusTriggeredPromise status tmo since w st).2.2.statusTriggerResolvable =
      some (createStatusTriggeredPromise status tmo since w st).1 := rfl

/-! ### Claim C8 -/

/-- Idempotence of `cancelWaiting` on the promise heap: a second call, with
any message, changes no promise cell, because every tracked cell is already
settled after the first call and a settled deferred is a rejection no-op. -/
theorem cancelWaiting_twice_promises (msg msg2 : String) (w : World) (st : ObserverState) :
    (cancelWaiting msg2 (cancelWaiting msg w st) st).promises =
      (cancelWaiting msg w st).promises := by
  have hlen : (cancelWaiting msg w st).promises.length = w.promises.length :=
    cancelWaiting_length msg w st
  have htracked : ∀ q,
      (st.resourceIdResolvable = some q ∨ st.statusTriggerResolvable = some q) →
      ((cancelWaiting msg w st).getPromise q).isPending = false ∨
        (cancelWaiting msg w st).promises.length ≤ q := by
    intro q hq
    by_cases hql : q < w.promises.length
    · exact Or.inl (cancelWaiting_tracked_not_pending msg w st q hq hql)
    · exact Or.inr (by rw [hlen]; omega)
  conv_lhs => rw [cancelWaiting]
  have h2p : ((cancelWaiting msg w st).clearTimer st.waitingForLoadTimeout).promises =
      (cancelWaiting msg w st).promises := clearTimer_promises _ _
  have h3 : (((cancelWaiting msg w st).clearTimer st.waitingForLoadTimeout).rejectIfPending
      st.resourceIdResolvable msg2).promises =
      ((cancelWaiting msg w st).clearTimer st.waitingForLoadTimeout).promises := by
    apply rejectIfPending_promises_of_settled
    intro p hp
    rcases htracked p (Or.inl hp) with hnp | hle
    · left
      rw [clearTimer_getPromise]
      exact hnp
    · right
      rw [h2p]
      exact hle
  have h4 : ((((cancelWaiting msg w st).clearTimer st.waitingForLoadTimeout).rejectIfPending
      st.resourceIdResolvable msg2).rejectIfPending st.statusTriggerResolvable msg2).promises =
      (((cancelWaiting msg w st).clearTimer st.waitingForLoadTimeout).rejectIfPending
        st.resourceIdResolvable msg2).promises := by
    apply rejectIfPending_promises_of_settled
    intro p hp
    rcases htracked p (Or.inr hp) with hnp | hle
    · left
      have hg : (((cancelWaiting msg w st).clearTimer
          st.waitingForLoadTimeout).rejectIfPending st.resourceIdResolvable
            msg2).getPromise p = (cancelWaiting msg w st).getPromise p := by
        unfold World.getPromise
        rw [h3, h2p]
      rw [hg]
      exact hnp
    · right
      rw [h3, h2p]
      exact hle
  rw [h4, h3, h2p]

/-- Claim C8: `cancelWaiting` rejects every still pending tracked deferred
exactly once with a cancellation error carrying the supplied reason, is a
no-op on an already settled deferred, and a second call causes no double
rejection: it leaves the promise heap unchanged. -/
theorem cancelWaiting_rejects_exactly_once (w : World) (st : ObserverState)
    (msg msg2 : String) (p : Nat)
    (hp : st.resourceIdResolvable = some p ∨ st.statusTriggerResolvable = some p)
    (hl : p < w.promises.length) :
    ((cancelWaiting msg w st).getPromise p =
        if (w.getPromise p).isPending then .rejected (.canceled msg)
        else w.getPromise p) ∧
      (cancelWaiting msg2 (cancelWaiting msg w st) st).promises =
        (cancelWaiting msg w st).promises :=
  ⟨cancelWaiting_getPromise_tracked msg w st p hp hl,
   cancelWaiting_twice_promises msg msg2 w st⟩

/-- A heap holding one pending and one settled cell. -/
def wTwoCells : World := ⟨[.pending, .resolved none], []⟩

/-- An observer tracking cell 0 as resource deferred and cell 1 as status
trigger deferred. -/
def stTracking : ObserverState :=
  { resourceIdResolvable := some 0, statusTriggerResolvable := some 1 }

theorem cancelWaiting_rejects_exactly_once_witness :
    ((cancelWaiting "stop" wTwoCells stTracking).getPromise 0 =
        if (wTwoCells.getPromise 0).isPending then .rejected (.canceled "stop")
        else wTwoCells.getPromise 0) ∧
      (cancelWaiting "again" (cancelWaiting "stop" wTwoCells stTracking)
          stTracking).promises =
        (cancelWaiting "stop" wTwoCells stTracking).promises :=
  cancelWaiting_rejects_exactly_once wTwoCells stTracking "stop" "again" 0
    (Or.inl rfl) (by decide)

/-! ### Claim C6 -/

/-- Claim C6: registering a new pending trigger while a prior unresolved
one exists rejects the prior deferred with a cancellation error carrying
the reason "New location trigger created" (a `canceled` rejection,
distinguishable from a timeout) before the new trigger is armed: after the
call the old cell is rejected, the fresh cell is pending, the observer
tracks the fresh cell, and the two cells are distinct. -/
theorem new_trigger_rejects_prior_pending (w : World) (st : ObserverState)
    (status : LocationStatus) (tmo : Option Nat) (since : Option Int) (p : Nat)
    (hp : st.statusTriggerResolvable = some p)
    (hpend : (w.getPromise p).isPending = true)
    (hl : p < w.promises.length) :
    ((createStatusTriggeredPromise status tmo since w st).2.1.getPromise p =
        .rejected (.canceled "New location trigger created")) ∧
      (createStatusTriggeredPromise status tmo since w st).2.2.statusTriggerResolvable =
        some (createStatusTriggeredPromise status tmo since w st).1 ∧
      ((createStatusTriggeredPromise status tmo since w st).2.1.getPromise
          (createStatusTriggeredPromise status tmo since w st).1).isPending = true ∧
      (createStatusTriggeredPromise status tmo since w st).1 ≠ p := by
  have hsome : st.statusTriggerResolvable.isSome = true := by rw [hp]; rfl
  have hl1 : p < (cancelWaiting "New location trigger created" w st).promises.length := by
    rw [cancelWaiting_length]; exact hl
  refine ⟨?_, create_state_resolvable status tmo since w st, ?_, ?_⟩
  · rw [create_world_eq status tmo since w st hsome, getPromise_append_lt _ _ p hl1,
      cancelWaiting_getPromise_tracked "New location trigger created" w st p (Or.inr hp) hl,
      if_pos hpend]
  · rw [create_world_eq status tmo since w st hsome,
      create_pid_eq status tmo since w st hsome, getPromise_append_len]
    rfl
  · rw [create_pid_eq status tmo since w st hsome]
    omega

/-- An observer tracking cell 0 as status trigger deferred and cell 1 as
resource deferred. -/
def stTrackingSwap : ObserverState :=
  { statusTriggerResolvable := some 0, resourceIdResolvable := some 1 }

theorem new_trigger_rejects_prior_pending_witness :
    ((createStatusTriggeredPromise (.load .DomContentLoaded) none none wTwoCells
          stTrackingSwap).2.1.getPromise 0 =
        .rejected (.canceled "New location trigger created")) ∧
      (createStatusTriggeredPromise (.load .DomContentLoaded) none none wTwoCells
          stTrackingSwap).2.2.statusTriggerResolvable =
        some (createStatusTriggeredPromise (.load .DomContentLoaded) none none wTwoCells
          stTrackingSwap).1 ∧
      ((createStatusTriggeredPromise (.load .DomContentLoaded) none none wTwoCells
          stTrackingSwap).2.1.getPromise
          (createStatusTriggeredPromise (.load .DomContentLoaded) none none wTwoCells
            stTrackingSwap).1).isPending = true ∧
      (createStatusTriggeredPromise (.load .DomContentLoaded) none none wTwoCells
          stTrackingSwap).1 ≠ 0 :=
  new_trigger_rejects_prior_pending wTwoCells stTrackingSwap (.load .DomContentLoaded)
    none none 0 rfl (by decide) (by decide)

/-! ### Claim C9 -/

/-- Claim C9: supersession runs the full `cancelWaiting` routine, so
registering a new pending trigger while one exists also rejects a still
pending `waitForNavigationResourceId` deferred with the same cancellation
error, as a side effect of the unrelated new wait call. -/
theorem supersession_rejects_resource_waiter (w : World) (st : ObserverState)
    (status : LocationStatus) (tmo : Option Nat) (since : Option Int) (q r : Nat)
    (hq : st.statusTriggerResolvable = some q)
    (hr : st.resourceIdResolvable = some r)
    (hpend : (w.getPromise r).isPending = true)
    (hl : r < w.promises.length) :
    (createStatusTriggeredPromise status tmo since w st).2.1.getPromise r =
      .rejected (.canceled "New location trigger created") := by
  have hsome : st.statusTriggerResolvable.isSome = true := by rw [hq]; rfl
  have hl1 : r < (cancelWaiting "New location trigger created" w st).promises.length := by
    rw [cancelWaiting_length]; exact hl
  rw [create_world_eq status tmo since w st hsome, getPromise_append_lt _ _ r hl1,
    cancelWaiting_getPromise_tracked "New location trigger created" w st r (Or.inl hr) hl,
    if_pos hpend]

theorem supersession_rejects_resource_waiter_witness :
    (createStatusTriggeredPromise (.location .change) none none wTwoCells
        stTracking).2.1.getPromise 0 =
      .rejected (.canceled "New location trigger created") :=
  supersession_rejects_resource_waiter wTwoCells stTracking (.location .change)
    none none 1 0 rfl rfl (by decide) (by decide)

/-! ### String lemmas for the in-page URL adjustment heuristic -/

theorem isPrefixL_append_self (l t : List Char) : isPrefixL l (l ++ t) = true := by
  induction l with
  | nil => rfl
  | cons a as ih => simp [isPrefixL, ih]

theorem isPrefixL_length_le (l s : List Char) (h : isPrefixL l s = true) :
    l.length ≤ s.length := by
  induction l generalizing s with
  | nil => simp
  | cons a as ih =>
      cases s with
      | nil => simp [isPrefixL] at h
      | cons b bs =>
          simp [isPrefixL] at h
          simpa using ih bs h.2

theorem drop_append_self (l t : List Char) : (l ++ t).drop l.length = t := by
  induction l with
  | nil => rfl
  | cons a as ih => simpa using ih

theorem removeFirstAux_prepend (pat t : List Char) (h : pat ≠ []) :
    removeFirstAux pat (pat ++ t) = t := by
  cases pat with
  | nil => exact absurd rfl h
  | cons p ps =>
      show removeFirstAux (p :: ps) (p :: (ps ++ t)) = t
      unfold removeFirstAux
      have hcond : isPrefixL (p :: ps) (p :: (ps ++ t)) = true :=
        isPrefixL_append_self (p :: ps) t
      rw [if_pos hcond]
      exact drop_append_self (p :: ps) t

theorem removeFirstAux_of_short (pat s : List Char) (h : s.length < pat.length) :
    removeFirstAux pat s = s := by
  induction s with
  | nil => rfl
  | cons c rest ih =>
      have h1 : rest.length < pat.length := by
        simp at h
        omega
      have hp : isPrefixL pat (c :: rest) = false := by
        cases hb : isPrefixL pat (c :: rest)
        · rfl
        · have := isPrefixL_length_le pat (c :: rest) hb
          simp at h this
          omega
      unfold removeFirstAux
      simp only [hp, Bool.false_eq_true, if_false]
      rw [ih h1]

theorem jsReplace_gained (u t : List Char) (h : u ≠ []) :
    jsReplaceFirstWithEmpty (u ++ t) u = t := by
  cases u with
  | nil => exact absurd rfl h
  | cons p ps => exact removeFirstAux_prepend (p :: ps) t h

theorem jsReplace_short (u s : List Char) (h : s.length < u.length) :
    jsReplaceFirstWithEmpty s u = s := by
  cases u with
  | nil => simp at h
  | cons p ps => exact removeFirstAux_of_short (p :: ps) s h

/-! ### Claim C2 -/

/-- Entry-level rule: a `change` trigger never accepts an in-page entry
whose final URL gained exactly one trailing character over the previous
settled URL. -/
theorem change_not_for_single_gained_char (u : List Char) (c : Char) (e : INavigation)
    (since : Option Int) (hreason : e.navigationReason = .inPage)
    (hurl : e.finalUrl = u ++ [c]) :
    entrySatisfies .change since (some u) e = false := by
  have hc : entryIsLocationChange .change (some u) e = false := by
    unfold entryIsLocationChange
    rw [decide_eq_false_iff_not]
    by_cases hu : u = []
    · intro hcon
      exact hcon.1.1 hu
    · intro hcon
      refine hcon.2 ⟨hreason, ?_⟩
      rw [hurl, jsReplace_gained u [c] hu]
      simp
  unfold entrySatisfies
  rw [hc, Bool.and_false]

/-- Entry-level rule: an in-scope entry whose final URL LOST a trailing
chunk relative to the previous settled URL is accepted by a `change`
trigger (whatever the navigation reason): the longer previous URL does not
occur inside the shorter final URL, so the JavaScript replace leaves the
final URL whole and its length exceeds one. -/
theorem change_for_lost_trailing (u s : List Char) (e : INavigation) (since : Option Int)
    (hmatch : jsGte e.startCommandId since = true)
    (hu : u = e.finalUrl ++ s) (hs : s ≠ []) (hlen : 2 ≤ e.finalUrl.length) :
    entrySatisfies .change since (some u) e = true := by
  have hslen : 0 < s.length := List.length_pos.mpr hs
  have hulen : e.finalUrl.length < u.length := by
    rw [hu, List.length_append]
    omega
  have hune : u ≠ [] := by
    intro hq
    rw [hq] at hulen
    simp at hulen
  have hnefin : u ≠ e.finalUrl := by
    intro hq
    rw [hq] at hulen
    exact absurd hulen (lt_irrefl _)
  have hrep : jsReplaceFirstWithEmpty e.finalUrl u = e.finalUrl :=
    jsReplace_short u e.finalUrl hulen
  unfold entrySatisfies entryIsLocationChange
  rw [hmatch]
  simp only [Bool.true_and]
  rw [decide_eq_true_eq]
  refine ⟨⟨hune, hnefin⟩, ?_⟩
  rintro ⟨-, hle⟩
  rw [hrep] at hle
  omega

/-- Entry-level rule: an in-scope entry with a differing final URL and a
navigation reason other than `inPage` is accepted by a `change` trigger. -/
theorem change_for_other_reason (u : List Char) (e : INavigation) (since : Option Int)
    (hmatch : jsGte e.startCommandId since = true)
    (hreason : e.navigationReason ≠ .inPage) (hu1 : u ≠ []) (hu2 : u ≠ e.finalUrl) :
    entrySatisfies .change since (some u) e = true := by
  unfold entrySatisfies entryIsLocationChange
  rw [hmatch]
  simp only [Bool.true_and]
  rw [decide_eq_true_eq]
  exact ⟨⟨hu1, hu2⟩, fun hc => hreason hc.1⟩

/-- Entry-level rule: an in-scope entry whose final URL gained two or more
trailing characters is accepted by a `change` trigger even on an in-page
navigation. -/
theorem change_for_multi_gained (u s : List Char) (e : INavigation) (since : Option Int)
    (hmatch : jsGte e.startCommandId since = true) (hu : u ≠ []) (hs : 2 ≤ s.length)
    (hurl : e.finalUrl = u ++ s) :
    entrySatisfies .change since (some u) e = true := by
  have hnefin : u ≠ e.finalUrl := by
    intro hq
    have hlen : e.finalUrl.length = u.length + s.length := by
      rw [hurl, List.length_append]
    rw [← hq] at hlen
    omega
  have hrep : jsReplaceFirstWithEmpty e.finalUrl u = s := by
    rw [hurl]
    exact jsReplace_gained u s hu
  unfold entrySatisfies entryIsLocationChange
  rw [hmatch]
  simp only [Bool.true_and]
  rw [decide_eq_true_eq]
  refine ⟨⟨hu, hnefin⟩, ?_⟩
  rintro ⟨-, hle⟩
  rw [hrep] at hle
  omega

/-- An in-page entry whose final URL lost the trailing slash of the
previous settled URL. -/
def entryLostSlash : INavigation :=
  { startCommandId := 2, finalUrl := "https://x".data, navigationReason := .inPage,
    statusChanges := [.DomContentLoaded], resourceId := 1 }

/-- History: a settled entry at the slashed URL, then the in-page entry
that lost the trailing slash. -/
def navLostSlash : FrameNavigations := { history := [entryDomLoaded, entryLostSlash] }

/-- Claim C2, counterexample: the claim says an in-page entry differing
from the previous settled URL only by a single LOST trailing character
(the trailing slash) does not satisfy a `change` trigger; on this concrete
history the trigger IS satisfied, because the JavaScript replace finds no
occurrence of the longer previous URL inside the shorter final URL, leaves
the final URL whole, and its length exceeds one. -/
theorem inPage_lost_trailing_slash_triggers_change :
    entryLostSlash.navigationReason = .inPage ∧
      entryLostSlash.finalUrl ++ ['/'] = entryDomLoaded.finalUrl ∧
      hasLocationTrigger navLostSlash .change (some 0) = true := by
  decide

/-- Claim C2 (amended): for an entry in `sinceCommandId` scope scanned
against a previous settled URL, a `change` trigger (1) is never satisfied
by an in-page entry whose final URL gained exactly one trailing character
over the previous URL; (2) IS satisfied by an entry that lost a trailing
chunk (for example the trailing slash), whatever the reason; (3) IS
satisfied by any differing final URL via a non-in-page reason; and (4) IS
satisfied by an entry that gained two or more trailing characters even via
an in-page reason. -/
theorem change_trigger_url_adjust_rules :
    (∀ (u : List Char) (c : Char) (e : INavigation) (since : Option Int),
        e.navigationReason = .inPage → e.finalUrl = u ++ [c] →
        entrySatisfies .change since (some u) e = false) ∧
      (∀ (u s : List Char) (e : INavigation) (since : Option Int),
        jsGte e.startCommandId since = true → u = e.finalUrl ++ s → s ≠ [] →
        2 ≤ e.finalUrl.length →
        entrySatisfies .change since (some u) e = true) ∧
      (∀ (u : List Char) (e : INavigation) (since : Option Int),
        jsGte e.startCommandId since = true → e.navigationReason ≠ .inPage →
        u ≠ [] → u ≠ e.finalUrl →
        entrySatisfies .change since (some u) e = true) ∧
      (∀ (u s : List Char) (e : INavigation) (since : Option Int),
        jsGte e.startCommandId since = true → u ≠ [] → 2 ≤ s.length →
        e.finalUrl = u ++ s →
        entrySatisfies .change since (some u) e = true) :=
  ⟨change_not_for_single_gained_char, change_for_lost_trailing,
   change_for_other_reason, change_for_multi_gained⟩

/-- An in-page entry whose final URL gained the trailing slash. -/
def entryGainedSlash : INavigation :=
  { startCommandId := 2, finalUrl := "https://x/".data, navigationReason := .inPage,
    statusChanges := [.DomContentLoaded], resourceId := 1 }

/-- A user-initiated entry at a different host. -/
def entryOtherUrl : INavigation :=
  { startCommandId := 2, finalUrl := "https://y/".data, navigationReason := .userInitiated,
    statusChanges := [.DomContentLoaded], resourceId := 1 }

/-- An in-page entry whose final URL gained a two-character path suffix. -/
def entryGainedPath : INavigation :=
  { startCommandId := 2, finalUrl := "https://x/a".data, navigationReason := .inPage,
    statusChanges := [.DomContentLoaded], resourceId := 1 }

theorem change_trigger_url_adjust_rules_witness :
    entrySatisfies .change (some 0) (some "https://x".data) entryGainedSlash = false ∧
      entrySatisfies .change (some 0) (some "https://x/".data) entryLostSlash = true ∧
      entrySatisfies .change (some 0) (some "https://x/".data) entryOtherUrl = true ∧
      entrySatisfies .change (some 0) (some "https://x".data) entryGainedPath = true :=
  ⟨change_trigger_url_adjust_rules.1 "https://x".data '/' entryGainedSlash (some 0)
      rfl (by decide),
   change_trigger_url_adjust_rules.2.1 "https://x/".data ['/'] entryLostSlash (some 0)
      (by decide) (by decide) (by decide) (by decide),
   change_trigger_url_adjust_rules.2.2.1 "https://x/".data entryOtherUrl (some 0)
      (by decide) (by decide) (by decide) (by decide),
   change_trigger_url_adjust_rules.2.2.2 "https://x".data "/a".data entryGainedPath (some 0)
      (by decide) (by decide) (by decide) (by decide)⟩

/-! ### Claim C1: the load-status scan run -/

theorem pipeline_ne_zero (s : LoadStatus) : LoadStatusPipeline s ≠ 0 := by
  cases s <;> simp [LoadStatusPipeline]

/-- The condition under which the status scan of `onLoadStatusChange`
fires: some key other than `HttpRedirected` whose pinned rank reaches the
rank of the target. -/
def statusScanHit (target : LoadStatus) (keys : List LoadStatus) : Bool :=
  keys.any fun s =>
    decide (s ≠ .HttpRedirected) && decide (pinnedPipelineRank s ≥ LoadStatusPipeline target)

theorem scanStatusKeys_eq (target : LoadStatus) (w : World) (st : ObserverState)
    (keys : List LoadStatus) :
    scanStatusKeys (LoadStatusPipeline target) w st keys =
      if statusScanHit target keys then resolvePendingStatus w st else (w, st) := by
  induction keys with
  | nil => rfl
  | cons s rest ih =>
      by_cases h1 : s = .HttpRedirected
      · subst h1
        unfold scanStatusKeys
        rw [if_pos rfl, ih]
        have he : statusScanHit target (LoadStatus.HttpRedirected :: rest) =
            statusScanHit target rest := by
          simp [statusScanHit]
        rw [he]
      · by_cases h2 : pinnedPipelineRank s ≥ LoadStatusPipeline target
        · unfold scanStatusKeys
          rw [if_neg h1, if_pos h2]
          have he : statusScanHit target (s :: rest) = true := by
            simp [statusScanHit, List.any_cons, h1, h2]
          rw [he, if_pos rfl]
        · unfold scanStatusKeys
          rw [if_neg h1, if_neg h2, ih]
          have he : statusScanHit target (s :: rest) = statusScanHit target rest := by
            simp [statusScanHit, List.any_cons, h2]
          rw [he]

theorem hasLoadStatus_of_top (nav : FrameNavigations) (status : LoadStatus)
    (t : INavigation) (htop : nav.top = some t) :
    nav.hasLoadStatus status = statusScanHit status t.statusChanges := by
  unfold FrameNavigations.hasLoadStatus statusScanHit
  rw [htop]

/-- A live load-status trigger: the observer waits for `status` on promise
cell `pid`, which is still pending and in range. -/
def ArmedFor (status : LoadStatus) (pid : Nat) (w : World) (st : ObserverState) : Prop :=
  st.statusTrigger = some (.load status) ∧
  st.statusTriggerResolvable = some pid ∧
  w.getPromise pid = .pending ∧
  pid < w.promises.length

theorem resolveP_getPromise_pending (w : World) (pid : Nat)
    (hp : w.getPromise pid = .pending) (hl : pid < w.promises.length) :
    (w.resolveP pid none).getPromise pid = .resolved none := by
  rw [World.resolveP, settle_getPromise_self w pid _ hl, hp]
  simp [PromiseState.isPending]

theorem resolve_armed (w : World) (st : ObserverState) (status : LoadStatus) (pid : Nat)
    (h : ArmedFor status pid w st) :
    resolvePendingStatus w st =
      ((w.clearTimer st.waitingForLoadTimeout).resolveP pid none,
        { st with
            statusTriggerResolvable := none
            statusTrigger := none
            statusTriggerStartCommandId := none }) := by
  obtain ⟨h1, h2, h3, h4⟩ := h
  unfold resolvePendingStatus
  rw [h2]
  show (if (w.getPromise pid).isPending = true then _ else (w, st)) = _
  rw [h3]
  rw [if_pos (show (PromiseState.pending).isPending = true from rfl)]

theorem onLoad_armed (nav : FrameNavigations) (w : World) (st : ObserverState)
    (status : LoadStatus) (pid : Nat) (h : ArmedFor status pid w st)
    (hps : status ≠ .PaintingStable) :
    onLoadStatusChange nav w st =
      if nav.hasLoadStatus status then resolvePendingStatus w st else (w, st) := by
  obtain ⟨h1, h2, h3, h4⟩ := h
  unfold onLoadStatusChange
  rw [h1, h2]
  show (if (w.getPromise pid).isPending = true then
      if LoadStatusPipeline status = 0 then (w, st)
      else if status = LoadStatus.PaintingStable then waitForPageLoaded nav w st
      else
        match nav.top with
        | none => (w, st)
        | some t => scanStatusKeys (LoadStatusPipeline status) w st t.statusChanges
    else (w, st)) =
    if nav.hasLoadStatus status = true then resolvePendingStatus w st else (w, st)
  rw [h3]
  rw [if_pos (show (PromiseState.pending).isPending = true from rfl)]
  rw [if_neg (pipeline_ne_zero status), if_neg hps]
  cases htop : nav.top with
  | none =>
      have hf : nav.hasLoadStatus status = false := by
        unfold FrameNavigations.hasLoadStatus
        rw [htop]
      rw [hf]
      simp
  | some t =>
      show scanStatusKeys (LoadStatusPipeline status) w st t.statusChanges =
        if nav.hasLoadStatus status = true then resolvePendingStatus w st else (w, st)
      rw [scanStatusKeys_eq status w st t.statusChanges,
        hasLoadStatus_of_top nav status t htop]

theorem onLoad_done (nav : FrameNavigations) (w : World) (st : ObserverState)
    (h : st.statusTriggerResolvable = none) :
    onLoadStatusChange nav w st = (w, st) := by
  unfold onLoadStatusChange
  cases h1 : st.statusTrigger with
  | none => rw [h]
  | some ls =>
      cases ls with
      | load s => rw [h]
      | location trig =>
          simp only []
          have hres : resolvePendingStatus w st = (w, st) := by
            unfold resolvePendingStatus
            rw [h]
          rw [hres]
          simp

theorem notifyAll_done (navs : List FrameNavigations) (w : World) (st : ObserverState)
    (h : st.statusTriggerResolvable = none) :
    notifyAll navs w st = (w, st) := by
  induction navs with
  | nil => rfl
  | cons nav rest ih =>
      unfold notifyAll
      rw [onLoad_done nav w st h]
      exact ih

theorem onLoad_armed_hit (nav : FrameNavigations) (w : World) (st : ObserverState)
    (status : LoadStatus) (pid : Nat) (h : ArmedFor status pid w st)
    (hps : status ≠ .PaintingStable) (hh : nav.hasLoadStatus status = true) :
    (onLoadStatusChange nav w st).1.getPromise pid = .resolved none ∧
      (onLoadStatusChange nav w st).2.statusTriggerResolvable = none := by
  rw [onLoad_armed nav w st status pid h hps, if_pos hh,
    resolve_armed w st status pid h]
  constructor
  · show ((w.clearTimer st.waitingForLoadTimeout).resolveP pid none).getPromise pid = _
    apply resolveP_getPromise_pending
    · rw [clearTimer_getPromise]
      exact h.2.2.1
    · rw [clearTimer_promises]
      exact h.2.2.2
  · rfl

theorem notifyAll_armed (status : LoadStatus) (hps : status ≠ .PaintingStable) (pid : Nat) :
    ∀ (navs : List FrameNavigations) (w : World) (st : ObserverState),
      ArmedFor status pid w st →
      (((notifyAll navs w st).1.getPromise pid).isSuccess = true ↔
        ∃ nav ∈ navs, nav.hasLoadStatus status = true) := by
  intro navs
  induction navs with
  | nil =>
      intro w st h
      show (w.getPromise pid).isSuccess = true ↔ _
      rw [h.2.2.1]
      simp [PromiseState.isSuccess]
  | cons nav rest ih =>
      intro w st h
      by_cases hh : nav.hasLoadStatus status = true
      · have hstep := onLoad_armed_hit nav w st status pid h hps hh
        have hdone : notifyAll rest (onLoadStatusChange nav w st).1
            (onLoadStatusChange nav w st).2 =
            ((onLoadStatusChange nav w st).1, (onLoadStatusChange nav w st).2) :=
          notifyAll_done rest _ _ hstep.2
        show ((notifyAll rest (onLoadStatusChange nav w st).1
            (onLoadStatusChange nav w st).2).1.getPromise pid).isSuccess = true ↔ _
        rw [hdone]
        show ((onLoadStatusChange nav w st).1.getPromise pid).isSuccess = true ↔ _
        rw [hstep.1]
        simp only [PromiseState.isSuccess, true_iff]
        exact ⟨nav, List.mem_cons_self nav rest, hh⟩
      · have hid : onLoadStatusChange nav w st = (w, st) := by
          rw [onLoad_armed nav w st status pid h hps, if_neg hh]
        show ((notifyAll rest (onLoadStatusChange nav w st).1
            (onLoadStatusChange nav w st).2).1.getPromise pid).isSuccess = true ↔ _
        rw [hid]
        show ((notifyAll rest w st).1.getPromise pid).isSuccess = true ↔ _
        rw [ih w st h]
        constructor
        · rintro ⟨x, hx, hpx⟩
          exact ⟨x, List.mem_cons_of_mem _ hx, hpx⟩
        · rintro ⟨x, hx, hpx⟩
          rcases List.mem_cons.mp hx with rfl | hx2
          · exact absurd hpx hh
          · exact ⟨x, hx2, hpx⟩

/-- The world right after a fresh registration: one pending promise cell. -/
def armedWorld : World := ⟨[.pending], []⟩

/-- The observer state right after a fresh registration for `status`. -/
def armedState (status : LoadStatus) : ObserverState :=
  { statusTriggerResolvable := some 0, statusTrigger := some (.load status) }

theorem runWaitForLoad_iff_hasLoadStatus (status : LoadStatus)
    (hps : status ≠ .PaintingStable) (nav0 : FrameNavigations)
    (navs : List FrameNavigations) :
    runWaitForLoad status nav0 navs = true ↔
      (nav0.hasLoadStatus status = true ∨
        ∃ nav ∈ navs, nav.hasLoadStatus status = true) := by
  have hjs : ¬(jsTruthyInt ({} : IWaitForOptions).sinceCommandId = true) := by decide
  unfold runWaitForLoad
  by_cases h0 : nav0.hasLoadStatus status = true
  · have hw : waitForLoad nav0 status {} World.empty ObserverState.init =
        (.resolvedNow, World.empty, ObserverState.init) := by
      unfold waitForLoad
      rw [if_neg hjs, if_pos h0]
    rw [hw]
    simp [h0]
  · have harmed : ArmedFor status 0 armedWorld (armedState status) :=
      ⟨rfl, rfl, rfl, Nat.zero_lt_one⟩
    have hcr : createStatusTriggeredPromise (.load status)
        ({} : IWaitForOptions).timeoutMs none World.empty ObserverState.init =
        (0, armedWorld, armedState status) := rfl
    have hw : waitForLoad nav0 status {} World.empty ObserverState.init =
        (.pendingTrigger 0, armedWorld, armedState status) := by
      unfold waitForLoad
      rw [if_neg hjs, if_neg h0, hcr]
      show (WaitOutcome.pendingTrigger 0,
        (if (nav0.top).isSome = true then
            onLoadStatusChange nav0 armedWorld (armedState status)
          else (armedWorld, armedState status)).1,
        (if (nav0.top).isSome = true then
            onLoadStatusChange nav0 armedWorld (armedState status)
          else (armedWorld, armedState status)).2) = _
      have hstep : (if (nav0.top).isSome = true then
          onLoadStatusChange nav0 armedWorld (armedState status)
        else (armedWorld, armedState status)) = (armedWorld, armedState status) := by
        split
        · rw [onLoad_armed nav0 armedWorld (armedState status) status 0 harmed hps,
            if_neg h0]
        · rfl
      rw [hstep]
    rw [hw]
    show ((notifyAll navs armedWorld (armedState status)).1.getPromise 0).isSuccess =
        true ↔ _
    rw [notifyAll_armed status hps 0 navs armedWorld (armedState status) harmed]
    simp [h0]

/-- The condition of claim C1, in its own words: the top navigation entry
status map holds some milestone, other than `HttpRedirected`, whose pinned
pipeline rank is at least the rank of the target status. -/
def topRankReached (status : LoadStatus) (nav : FrameNavigations) : Prop :=
  ∃ t, nav.top = some t ∧ ∃ s ∈ t.statusChanges,
    s ≠ .HttpRedirected ∧ pinnedPipelineRank s ≥ LoadStatusPipeline status

theorem topRankReached_iff_hasLoadStatus (status : LoadStatus) (nav : FrameNavigations) :
    topRankReached status nav ↔ nav.hasLoadStatus status = true := by
  unfold topRankReached FrameNavigations.hasLoadStatus
  cases htop : nav.top with
  | none => simp
  | some t => simp [List.any_eq_true]

/-- An entry that painted and finished loading but carries no
`PaintingStable` key. -/
def entryPainted : INavigation :=
  { startCommandId := 1, finalUrl := "https://x/".data,
    navigationReason := .userInitiated,
    statusChanges := [.AllContentLoaded, .ContentPaint], resourceId := 0 }

/-- A timeline whose paint-stable query already reports a settled paint. -/
def navStablePaint : FrameNavigations :=
  { history := [entryPainted], paintStable := ⟨true, none⟩ }

/-- Claim C1, counterexample: with the target `PaintingStable`, a
`waitForLoad` run resolves on a stable paint report even though the top
entry status map holds no milestone of rank at least the `PaintingStable`
rank, so the stated equivalence fails: resolution of the painting-stable
target follows the settlement path, not the rank scan. -/
theorem paintingStable_resolves_without_rank :
    runWaitForLoad .PaintingStable navStablePaint [] = true ∧
      ¬ topRankReached .PaintingStable navStablePaint := by
  constructor
  · decide
  · rw [topRankReached_iff_hasLoadStatus]
    decide

/-- Claim C1 (amended): for every load status other than `PaintingStable`
(whose settlement follows the quiet-period path of the spec instead of the
rank scan), and for every notification sequence, a `waitForLoad` call
resolves if and only if, at registration or at some later notification,
the top entry status map holds a milestone other than `HttpRedirected`
whose pinned pipeline rank reaches the rank of the target status. -/
theorem waitForLoad_resolves_iff_rank_reached (status : LoadStatus)
    (hps : status ≠ .PaintingStable) (nav0 : FrameNavigations)
    (navs : List FrameNavigations) :
    runWaitForLoad status nav0 navs = true ↔
      (topRankReached status nav0 ∨ ∃ nav ∈ navs, topRankReached status nav) := by
  rw [runWaitForLoad_iff_hasLoadStatus status hps nav0 navs]
  constructor
  · rintro (h | ⟨nav, hmem, hnav⟩)
    · exact Or.inl ((topRankReached_iff_hasLoadStatus status nav0).mpr h)
    · exact Or.inr ⟨nav, hmem, (topRankReached_iff_hasLoadStatus status nav).mpr hnav⟩
  · rintro (h | ⟨nav, hmem, hnav⟩)
    · exact Or.inl ((topRankReached_iff_hasLoadStatus status nav0).mp h)
    · exact Or.inr ⟨nav, hmem, (topRankReached_iff_hasLoadStatus status nav).mp hnav⟩

theorem waitForLoad_resolves_iff_rank_reached_witness :
    runWaitForLoad .DomContentLoaded { history := [] } [navDomLoaded] = true ↔
      (topRankReached .DomContentLoaded { history := [] } ∨
        ∃ nav ∈ [navDomLoaded], topRankReached .DomContentLoaded nav) :=
  waitForLoad_resolves_iff_rank_reached .DomContentLoaded (by decide)
    { history := [] } [navDomLoaded]

/-! ### Claim C7: the settlement timer never accumulates -/

/-- The timer invariant of the observer: every armed timer handle is the
one currently stored in `waitingForLoadTimeout`. -/
def TimerInv (w : World) (st : ObserverState) : Prop :=
  ∀ i, w.timers.getD i false = true → st.waitingForLoadTimeout = some i

theorem count_true_zero_of_all_false (l : List Bool)
    (h : ∀ i, l.getD i false = false) : l.count true = 0 := by
  induction l with
  | nil => rfl
  | cons b t ih =>
      have hb : b = false := h 0
      subst hb
      have ht : ∀ i, t.getD i false = false := fun i => h (i + 1)
      simp [List.count_cons, ih ht]

theorem count_true_le_one (l : List Bool)
    (h : ∀ i j, l.getD i false = true → l.getD j false = true → i = j) :
    l.count true ≤ 1 := by
  induction l with
  | nil => simp
  | cons b t ih =>
      cases b with
      | false =>
          have ht : ∀ i j, t.getD i false = true → t.getD j false = true → i = j := by
            intro i j hi hj
            have hs := h (i + 1) (j + 1) (by simpa using hi) (by simpa using hj)
            omega
          simpa [List.count_cons] using ih ht
      | true =>
          have ht : ∀ i, t.getD i false = false := by
            intro i
            cases hti : t.getD i false with
            | false => rfl
            | true =>
                have hs := h 0 (i + 1) (by simp) (by simpa using hti)
                omega
          simp [List.count_cons, count_true_zero_of_all_false t ht]

theorem timerInv_count_le_one (w : World) (st : ObserverState) (h : TimerInv w st) :
    w.timers.count true ≤ 1 := by
  apply count_true_le_one
  intro i j hi hj
  have h1 := h i hi
  have h2 := h j hj
  rw [h1] at h2
  exact Option.some.inj h2

theorem timerInv_of_timers_eq (w w' : World) (st st' : ObserverState)
    (ht : w'.timers = w.timers)
    (hp : st'.waitingForLoadTimeout = st.waitingForLoadTimeout)
    (h : TimerInv w st) : TimerInv w' st' := by
  intro i hi
  rw [hp]
  exact h i (by rw [← ht]; exact hi)

theorem settle_timers (w : World) (p : Nat) (s : PromiseState) :
    (w.settlePromise p s).timers = w.timers := by
  unfold World.settlePromise
  split <;> rfl

theorem clearTimer_timerInv_any (w : World) (st : ObserverState) (t : Option Nat)
    (h : TimerInv w st) : TimerInv (w.clearTimer t) st := by
  intro i hi
  apply h i
  cases t with
  | none => exact hi
  | some k =>
      by_cases hk : k = i
      · subst hk
        exfalso
        by_cases hlen : k < w.timers.length
        · rw [show (World.clearTimer w (some k)).timers = w.timers.set k false from rfl,
            getD_set_self w.timers k false false hlen] at hi
          cases hi
        · rw [show (World.clearTimer w (some k)).timers = w.timers.set k false from rfl,
            set_of_le w.timers k false (by omega),
            getD_of_le w.timers k false (by omega)] at hi
          cases hi
      · rw [show (World.clearTimer w (some k)).timers = w.timers.set k false from rfl,
          getD_set_ne w.timers k i false false hk] at hi
        exact hi

theorem resolvePendingStatus_timerInv (w : World) (st : ObserverState)
    (h : TimerInv w st) :
    TimerInv (resolvePendingStatus w st).1 (resolvePendingStatus w st).2 := by
  unfold resolvePendingStatus
  split
  · exact h
  · split
    · exact timerInv_of_timers_eq (w.clearTimer st.waitingForLoadTimeout) _ st _
        (settle_timers _ _ _) rfl (clearTimer_timerInv_any w st _ h)
    · exact h

/-- Clearing the stored settlement timer leaves no armed timer at all,
because the invariant says every armed timer is the stored one. -/
theorem clearTimer_pointer_all_clear (w : World) (st : ObserverState) (h : TimerInv w st)
    (i : Nat) :
    (w.clearTimer st.waitingForLoadTimeout).timers.getD i false = false := by
  cases hptr : st.waitingForLoadTimeout with
  | none =>
      show w.timers.getD i false = false
      cases harm : w.timers.getD i false with
      | false => rfl
      | true =>
          have hp := h i harm
          rw [hptr] at hp
          cases hp
  | some k =>
      show (w.timers.set k false).getD i false = false
      by_cases hk : k = i
      · subst hk
        by_cases hlen : k < w.timers.length
        · exact getD_set_self w.timers k false false hlen
        · rw [set_of_le w.timers k false (by omega)]
          exact getD_of_le w.timers k false (by omega)
      · rw [getD_set_ne w.timers k i false false hk]
        cases harm : w.timers.getD i false with
        | false => rfl
        | true =>
            have hp := h i harm
            rw [hptr] at hp
            exact absurd (Option.some.inj hp) hk

theorem clearTimer_preserves_all_clear (w : World) (t : Option Nat)
    (h : ∀ i, w.timers.getD i false = false) (i : Nat) :
    (w.clearTimer t).timers.getD i false = false := by
  cases t with
  | none => exact h i
  | some k =>
      show (w.timers.set k false).getD i false = false
      by_cases hk : k = i
      · subst hk
        by_cases hlen : k < w.timers.length
        · exact getD_set_self w.timers k false false hlen
        · rw [set_of_le w.timers k false (by omega)]
          exact h k
      · rw [getD_set_ne w.timers k i false false hk]
        exact h i

theorem resolvePendingStatus_preserves_all_clear (w : World) (st : ObserverState)
    (h : ∀ i, w.timers.getD i false = false) (i : Nat) :
    (resolvePendingStatus w st).1.timers.getD i false = false := by
  unfold resolvePendingStatus
  split
  · exact h i
  · split
    · show ((w.clearTimer st.waitingForLoadTimeout).resolveP _ none).timers.getD i
        false = false
      rw [World.resolveP, settle_timers]
      exact clearTimer_preserves_all_clear w _ h i
    · exact h i

/-- Arming one fresh timer in an all-clear heap restores the invariant
with the fresh handle as the stored one. -/
theorem arm_fresh_timerInv (w : World) (st : ObserverState)
    (hall : ∀ i, w.timers.getD i false = false) :
    TimerInv (w.armTimer).2
      { st with waitingForLoadTimeout := some (w.armTimer).1 } := by
  intro i hi
  by_cases hlt : i < w.timers.length
  · rw [show ((w.armTimer).2).timers = w.timers ++ [true] from rfl,
      getD_append_left _ _ i _ hlt, hall i] at hi
    cases hi
  · by_cases heq : i = w.timers.length
    · subst heq
      rfl
    · rw [show ((w.armTimer).2).timers = w.timers ++ [true] from rfl,
        getD_of_le _ _ _ (by simp [List.length_append]; omega)] at hi
      cases hi

/-- After the clear-and-maybe-resolve step, no settlement timer is armed
at all. -/
theorem paintStableStep_all_clear (nav : FrameNavigations) (w : World)
    (st : ObserverState) (h : TimerInv w st) (i : Nat) :
    (paintStableStep nav w st).1.timers.getD i false = false := by
  unfold paintStableStep
  split
  · exact resolvePendingStatus_preserves_all_clear _ st
      (clearTimer_pointer_all_clear w st h) i
  · exact clearTimer_pointer_all_clear w st h i

theorem waitForPageLoaded_timerInv (nav : FrameNavigations) (w : World)
    (st : ObserverState) (h : TimerInv w st) :
    TimerInv (waitForPageLoaded nav w st).1 (waitForPageLoaded nav w st).2 := by
  unfold waitForPageLoaded
  split
  · exact arm_fresh_timerInv (paintStableStep nav w st).1 (paintStableStep nav w st).2
      (paintStableStep_all_clear nav w st h)
  · intro i hi
    rw [paintStableStep_all_clear nav w st h i] at hi
    cases hi

theorem onLoad_timerInv (nav : FrameNavigations) (w : World) (st : ObserverState)
    (h : TimerInv w st) :
    TimerInv (onLoadStatusChange nav w st).1 (onLoadStatusChange nav w st).2 := by
  unfold onLoadStatusChange
  split
  · split
    · exact resolvePendingStatus_timerInv w st h
    · exact h
  · split
    · exact h
    · split
      · split
        · split
          · exact h
          · split
            · exact waitForPageLoaded_timerInv nav w st h
            · split
              · exact h
              · rw [scanStatusKeys_eq]
                split
                · exact resolvePendingStatus_timerInv w st h
                · exact h
        · exact h
      · exact h

theorem notifyAll_timerInv (navs : List FrameNavigations) :
    ∀ (w : World) (st : ObserverState), TimerInv w st →
      TimerInv (notifyAll navs w st).1 (notifyAll navs w st).2 := by
  induction navs with
  | nil =>
      intro w st h
      exact h
  | cons nav rest ih =>
      intro w st h
      exact ih _ _ (onLoad_timerInv nav w st h)

/-- Claim C7: at most one painting-stable settlement timer is in flight at
any time.  Starting from any state satisfying the timer invariant (every
armed settlement timer is the stored handle), processing any sequence of
status-change notifications preserves the invariant - every invocation of
the settlement path clears the prior timer before possibly arming a fresh
one - and at most one armed timer remains. -/
theorem settlement_timer_at_most_one (navs : List FrameNavigations) (w : World)
    (st : ObserverState) (h : TimerInv w st) :
    TimerInv (notifyAll navs w st).1 (notifyAll navs w st).2 ∧
      (notifyAll navs w st).1.timers.count true ≤ 1 := by
  have hinv := notifyAll_timerInv navs w st h
  exact ⟨hinv, timerInv_count_le_one _ _ hinv⟩

theorem settlement_timer_at_most_one_witness :
    (notifyAll [navStablePaint] World.empty ObserverState.init).1.timers.count true ≤ 1 :=
  (settlement_timer_at_most_one [navStablePaint] World.empty ObserverState.init
    (fun i hi => by simp [World.empty] at hi)).2
